import Mathlib

/-!
Shallow embedding of the `calc` expression-language core
(`include/Token.h`, `include/AST.h`, `src/Lexer.cpp`, `src/Parser.cpp`,
`src/Context.cpp`, `src/Evaluator.cpp`, `src/Calculator.cpp`).

Numeric model: C++ `double` values are modelled by exact rationals
(`Val`, a gcd-normalized `Int`/`Nat` fraction).  Every arithmetic
operation the claims exercise (+, -, *, /, integer powers, comparisons
against the 1e-12 epsilon, decimal-literal decoding) is exact in IEEE-754
binary64 on the inputs the claims use, so the exact-rational model agrees
with the C++ semantics there.  Transcendental builtins (sin, cos, tan,
log, log10) and non-integer exponents produce values no exact model can
represent; they are mapped to 0 and no claim depends on those values,
only on the arity/error behavior of the calls.
-/

deriving instance DecidableEq for Except

set_option maxRecDepth 40000
set_option exponentiation.threshold 1100

namespace Calc

/-- Exact rational stand-in for a C++ `double`: a fraction `num / den`.
All constructors used by the evaluator go through `Val.norm`, so values
are kept gcd-reduced with a positive denominator (and `0` is `0/1`),
which makes structural equality coincide with numeric equality. -/
structure Val where
  num : Int
  den : Nat
deriving DecidableEq, Repr

/-- Normalize a fraction by dividing out `gcd (|n|) d`.  For `d ≠ 0` the
result is the reduced representative of `n / d`. -/
def Val.norm (n : Int) (d : Nat) : Val :=
  let g := Nat.gcd n.natAbs d
  ⟨n / (g : Int), d / g⟩

/-- The double `0.0`. -/
def Val.zero : Val := ⟨0, 1⟩

/-- An integer-valued double. -/
def Val.ofInt (n : Int) : Val := ⟨n, 1⟩

/-- `a + b` on doubles (exact on the rationals both model). -/
def Val.add (a b : Val) : Val :=
  Val.norm (a.num * (b.den : Int) + b.num * (a.den : Int)) (a.den * b.den)

/-- `a - b` on doubles. -/
def Val.sub (a b : Val) : Val :=
  Val.norm (a.num * (b.den : Int) - b.num * (a.den : Int)) (a.den * b.den)

/-- `a * b` on doubles. -/
def Val.mul (a b : Val) : Val :=
  Val.norm (a.num * b.num) (a.den * b.den)

/-- Unary negation `-a`. -/
def Val.neg (a : Val) : Val := ⟨-a.num, a.den⟩

/-- `std::abs` on doubles. -/
def Val.abs (a : Val) : Val := ⟨(a.num.natAbs : Int), a.den⟩

/-- `a / b` on doubles.  The evaluator only divides after checking
`|b| ≥ 1e-12`, so `b.num ≠ 0` at every use site. -/
def Val.div (a b : Val) : Val :=
  Val.norm (a.num * (b.den : Int) * b.num.sign) (a.den * b.num.natAbs)

/-- `a < b` as real numbers (denominators are positive). -/
def Val.lt (a b : Val) : Bool :=
  a.num * (b.den : Int) < b.num * (a.den : Int)

/-- `a ≤ b` as real numbers. -/
def Val.le (a b : Val) : Bool :=
  a.num * (b.den : Int) ≤ b.num * (a.den : Int)

/-- Truncation toward zero of `a / b` as an integer (the quotient C's
`fmod` is defined by); `Int.tdiv` truncates toward zero exactly like C
integer division. -/
def Val.truncQuot (a b : Val) : Int :=
  Int.tdiv (a.num * (b.den : Int)) ((a.den : Int) * b.num)

/-- `std::fmod(a, b)`: `a - trunc(a/b) * b`, exact on rationals. -/
def Val.fmod (a b : Val) : Val :=
  Val.sub a (Val.mul b (Val.ofInt (Val.truncQuot a b)))

/-- `b` raised to the integer power `k` (exact; used by the `std::pow`
model below for integer exponents). -/
def Val.ipow (b : Val) (k : Int) : Val :=
  if 0 ≤ k then
    Val.norm (b.num ^ k.toNat) (b.den ^ k.toNat)
  else
    Val.norm ((b.num.sign ^ (-k).toNat) * ((b.den : Nat) : Int) ^ (-k).toNat)
      (b.num.natAbs ^ (-k).toNat)

/-- Model of `std::pow(b, e)`.  On an integer exponent (the only case any
claim exercises, and exact in binary64 for the claim inputs) it is the
exact integer power.  A non-integer exponent yields a transcendental (or
NaN) double that no exact model represents; it is mapped to 0, and no
claim depends on that case.  (`0^negative`, which is `inf` in C, is
likewise outside the modelled fragment.) -/
def Val.powModel (b e : Val) : Val :=
  if e.den = 1 then Val.ipow b e.num else Val.zero

/-- `std::floor` (exact on doubles; `Int.ediv` is floor division for a
positive denominator). -/
def Val.floorModel (a : Val) : Val := Val.ofInt (Int.ediv a.num (a.den : Int))

/-- `std::ceil`. -/
def Val.ceilModel (a : Val) : Val := Val.neg (Val.floorModel (Val.neg a))

/-- `std::fmin`-style minimum used by the `min` builtin reduction. -/
def Val.minV (a b : Val) : Val := if Val.lt b a then b else a

/-- Maximum used by the `max` builtin reduction. -/
def Val.maxV (a b : Val) : Val := if Val.lt a b then b else a

/-- Models of the transcendental builtins `sin`, `cos`, `tan`, `log`,
`log10`: their double results are irrational (not representable in any
exact model) and no claim depends on them, only on call arity and error
behavior; they are mapped to 0. -/
def Val.sinModel (_ : Val) : Val := Val.zero

/-- See `Val.sinModel`. -/
def Val.cosModel (_ : Val) : Val := Val.zero

/-- See `Val.sinModel`. -/
def Val.tanModel (_ : Val) : Val := Val.zero

/-- See `Val.sinModel`. -/
def Val.logModel (_ : Val) : Val := Val.zero

/-- See `Val.sinModel`. -/
def Val.log10Model (_ : Val) : Val := Val.zero

/-- Model of `std::sqrt`: exact on perfect squares of reduced fractions
(where binary64 `sqrt`, being correctly rounded, is also exact); other
results are irrational and mapped to 0 (no claim depends on them). -/
def Val.sqrtModel (a : Val) : Val :=
  if 0 ≤ a.num ∧ (Nat.sqrt a.num.toNat) ^ 2 = a.num.toNat ∧
      (Nat.sqrt a.den) ^ 2 = a.den then
    ⟨(Nat.sqrt a.num.toNat : Int), Nat.sqrt a.den⟩
  else Val.zero

/-- `kZeroEpsilon = 1e-12` from `Evaluator.cpp`. -/
def kZeroEpsilon : Val := ⟨1, 1000000000000⟩

/-- The exact value of the binary64 double `std::acos(-1.0)` (the
closest double to pi), seeded into the context as `pi`. -/
def piVal : Val := ⟨884279719003555, 281474976710656⟩

/-- The exact value of the binary64 double `std::exp(1.0)` (the closest
double to e), seeded into the context as `e`. -/
def eVal : Val := ⟨6121026514868073, 2251799813685248⟩

/-- Failures of one `Calculator::evaluate` call.  `parseError` and
`evalError` model the exception classes `calc::ParseError` and
`calc::EvalError` (both derived from `calc::CalcError`) with their
`what()` message.  `outOfRange` models the `std::out_of_range` exception
that `std::stoi` / `std::stod` throw inside the lexer on out-of-range
payloads; it is not a `calc::CalcError`.  `fuelOut` is an artifact of the
fueled embedding of the two unbounded loops (lexer loop, recursive
descent); the entry points supply fuel larger than any possible
consumption, and no theorem below relies on its absence. -/
inductive Err where
  | parseError (msg : String)
  | evalError (msg : String)
  | outOfRange
  | fuelOut
deriving DecidableEq, Repr

/-- The kind (C++ dynamic type) of a failure, forgetting the message. -/
inductive ErrKind where
  | parse
  | eval
  | range
  | fuel
deriving DecidableEq, Repr

/-- Maps a failure to its C++ dynamic type. -/
def Err.kind : Err → ErrKind
  | .parseError _ => .parse
  | .evalError _ => .eval
  | .outOfRange => .range
  | .fuelOut => .fuel

/-- `enum class TokenType` from `Token.h`. -/
inductive TokenType where
  | End
  | Number
  | Identifier
  | HistoryRef
  | Plus
  | Minus
  | Star
  | Slash
  | Percent
  | Caret
  | LParen
  | RParen
  | Comma
  | Assign
deriving DecidableEq, Repr

/-- `struct Token` from `Token.h` (value-initialized payload fields). -/
structure Token where
  type : TokenType
  lexeme : String := ""
  position : Nat := 0
  number_value : Val := Val.zero
  history_index : Int := 0
deriving DecidableEq, Repr

/-! ### Lexer (`src/Lexer.cpp`)

The C++ lexer walks a byte string with a cursor `pos_`.  Here the
remaining input is a `List Char` together with the absolute position of
its head; the `while` loops over character classes are `List.takeWhile`.
-/

/-- `std::isdigit` (C locale). -/
def isDigitC (c : Char) : Bool := '0' ≤ c && c ≤ '9'

/-- `std::isalpha` (C locale). -/
def isAlphaC (c : Char) : Bool := ('a' ≤ c && c ≤ 'z') || ('A' ≤ c && c ≤ 'Z')

/-- `std::isspace` (C locale): space, \t, \n, \v, \f, \r. -/
def isSpaceC (c : Char) : Bool :=
  c = ' ' || c = '\t' || c = '\n' || c = '\x0b' || c = '\x0c' || c = '\r'

/-- `Lexer::isIdentifierStart`. -/
def isIdentifierStart (c : Char) : Bool := isAlphaC c || c = '_'

/-- `Lexer::isIdentifierPart` (`std::isalnum` or underscore). -/
def isIdentifierPart (c : Char) : Bool := isAlphaC c || isDigitC c || c = '_'

/-- Numeric value of a decimal digit character. -/
def digitVal (c : Char) : Nat := c.toNat - '0'.toNat

/-- Value of a string of decimal digits. -/
def natOfDigits (ds : List Char) : Nat :=
  ds.foldl (fun a c => a * 10 + digitVal c) 0

/-- Decimal-string value of `std::stod` input, exactly, over the lexeme
shapes `Lexer::lexNumber` produces (digits, then optionally a dot and
digits, then optionally an exponent with optional sign).
`std::stod` rounds this exact value to the nearest binary64; that
rounding is not modelled.  Every theorem asserting a decoded payload
does so only for literals binary64 represents exactly, where rounding is
the identity; for other literals (e.g. `"1e308"`) only success is
asserted, never the payload. -/
def stodVal (cs : List Char) : Val :=
  let intPart := cs.takeWhile isDigitC
  let r1 := cs.drop intPart.length
  let fracPart := if r1.head? = some '.' then r1.tail.takeWhile isDigitC else []
  let r2 := if r1.head? = some '.' then r1.tail.drop fracPart.length else r1
  let mant : Nat := natOfDigits intPart * 10 ^ fracPart.length + natOfDigits fracPart
  let expVal : Int :=
    match r2 with
    | 'e' :: t =>
        (match t with
         | '+' :: u => (natOfDigits (u.takeWhile isDigitC) : Int)
         | '-' :: u => -(natOfDigits (u.takeWhile isDigitC) : Int)
         | u => (natOfDigits (u.takeWhile isDigitC) : Int))
    | 'E' :: t =>
        (match t with
         | '+' :: u => (natOfDigits (u.takeWhile isDigitC) : Int)
         | '-' :: u => -(natOfDigits (u.takeWhile isDigitC) : Int)
         | u => (natOfDigits (u.takeWhile isDigitC) : Int))
    | _ => 0
  if 0 ≤ expVal then
    Val.norm ((mant * 10 ^ expVal.toNat : Nat) : Int) (10 ^ fracPart.length)
  else
    Val.norm ((mant : Nat) : Int) (10 ^ fracPart.length * 10 ^ (-expVal).toNat)

/-- Smallest magnitude that binary64 round-to-nearest sends to infinity
(`2^1024 - 2^970`); at or above it `std::stod` throws `std::out_of_range`.
(Range errors on denormal underflow are implementation-defined and not
modelled; no claim depends on them.) -/
def dblOverflowBound : Nat := 2 ^ 1024 - 2 ^ 970

/-- Does `std::stod` throw `std::out_of_range` on this exact value? -/
def stodOverflows (v : Val) : Bool := dblOverflowBound * v.den ≤ v.num.natAbs

/-- `INT_MAX`: `std::stoi` decodes into `int`, 32-bit on every mainstream
ABI; above this it throws `std::out_of_range`. -/
def intMax : Nat := 2147483647

/-- Final section of `Lexer::lexNumber`: extract the lexeme from
`start` to `posE`, decode it with `std::stod` (throwing
`std::out_of_range` outside the double range), and build the token.
`cs` is the remaining input at `start`, `rE` the input left after the
literal. -/
def lexNumberFinish (cs : List Char) (start posE : Nat) (rE : List Char) :
    Except Err (Token × List Char × Nat) :=
  let lexeme := cs.take (posE - start)
  let v := stodVal lexeme
  if stodOverflows v then .error .outOfRange
  else .ok (⟨.Number, String.mk lexeme, start, v, 0⟩, rE, posE)

/-- Exponent section of `Lexer::lexNumber` (the `if (currentChar() ==
'e' || currentChar() == 'E')` block): optional sign, then one or more
digits required.  `r2` is the input remaining after the mantissa at
position `pos2`. -/
def lexNumberExp (cs : List Char) (start pos2 : Nat) (r2 : List Char) :
    Except Err (Token × List Char × Nat) :=
  match r2 with
  | c :: t =>
    if c = 'e' ∨ c = 'E' then
      let signLen : Nat := if t.head? = some '+' ∨ t.head? = some '-' then 1 else 0
      let expDigits := (t.drop signLen).takeWhile isDigitC
      if expDigits.length = 0 then
        .error (.parseError ("Invalid number at position " ++ Nat.repr pos2))
      else
        lexNumberFinish cs start (pos2 + 1 + signLen + expDigits.length)
          ((t.drop signLen).drop expDigits.length)
    else lexNumberFinish cs start pos2 r2
  | [] => lexNumberFinish cs start pos2 r2

/-- `Lexer::lexNumber`, on the remaining input `cs` (whose head starts a
number) at absolute position `pos`: integer digits, an optional dot with
fraction digits (the `!has_digits` error mirrors the source although
`tokenize` only enters `lexNumber` on inputs that make it unreachable),
then the exponent and final sections above. -/
def lexNumber (cs : List Char) (pos : Nat) : Except Err (Token × List Char × Nat) :=
  let ds1 := cs.takeWhile isDigitC
  let r1 := cs.drop ds1.length
  match r1 with
  | '.' :: r1t =>
    let ds2 := r1t.takeWhile isDigitC
    let r2 := r1t.drop ds2.length
    if ds1 = [] ∧ ds2 = [] then
      .error (.parseError ("Unexpected token '" ++ String.mk [r2.headD '\x00'] ++
        "' at position " ++ Nat.repr pos))
    else lexNumberExp cs pos (pos + ds1.length + 1 + ds2.length) r2
  | _ =>
    if ds1 = [] then
      .error (.parseError ("Unexpected token '" ++ String.mk [r1.headD '\x00'] ++
        "' at position " ++ Nat.repr pos))
    else lexNumberExp cs pos (pos + ds1.length) r1

/-- `Lexer::lexIdentifier`, on remaining input `cs` at position `pos`. -/
def lexIdentifier (cs : List Char) (pos : Nat) : Token × List Char × Nat :=
  let ident := cs.takeWhile isIdentifierPart
  (⟨.Identifier, String.mk ident, pos, Val.zero, 0⟩, cs.drop ident.length,
    pos + ident.length)

/-- `Lexer::lexHistoryRef`, on remaining input `cs = '$' :: _` at
position `pos`.  `std::stoi` throws `std::out_of_range` above `INT_MAX`. -/
def lexHistoryRef (cs : List Char) (pos : Nat) : Except Err (Token × List Char × Nat) :=
  let r := cs.tail
  let digits := r.takeWhile isDigitC
  if digits.length = 0 then
    .error (.parseError ("Unexpected token '$' at position " ++ Nat.repr pos))
  else
    let n := natOfDigits digits
    if intMax < n then .error .outOfRange
    else
      .ok (⟨.HistoryRef, String.mk ('$' :: digits), pos, Val.zero, (n : Int)⟩,
        r.drop digits.length, pos + 1 + digits.length)

/-- The `switch` over single-character operator tokens in
`Lexer::tokenize`. -/
def operatorType (c : Char) : Option TokenType :=
  if c = '+' then some .Plus
  else if c = '-' then some .Minus
  else if c = '*' then some .Star
  else if c = '/' then some .Slash
  else if c = '%' then some .Percent
  else if c = '^' then some .Caret
  else if c = '(' then some .LParen
  else if c = ')' then some .RParen
  else if c = ',' then some .Comma
  else if c = '=' then some .Assign
  else none

/-- The `while (!isAtEnd())` loop of `Lexer::tokenize`.  Each iteration
consumes at least one character, so fuel `length + 1` (supplied by
`tokenize`) never runs out. -/
def tokenizeLoop : Nat → List Char → Nat → Except Err (List Token)
  | 0, _, _ => .error .fuelOut
  | fuel + 1, cs, pos =>
    let ws := cs.takeWhile isSpaceC
    let cs1 := cs.drop ws.length
    let pos1 := pos + ws.length
    match cs1 with
    | [] => .ok [⟨.End, "", pos1, Val.zero, 0⟩]
    | c :: rest =>
      if isDigitC c || (c = '.' && isDigitC (rest.headD '\x00')) then
        match lexNumber cs1 pos1 with
        | .error e => .error e
        | .ok (t, r, p) => (tokenizeLoop fuel r p).map (t :: ·)
      else if isIdentifierStart c then
        let (t, r, p) := lexIdentifier cs1 pos1
        (tokenizeLoop fuel r p).map (t :: ·)
      else if c = '$' then
        match lexHistoryRef cs1 pos1 with
        | .error e => .error e
        | .ok (t, r, p) => (tokenizeLoop fuel r p).map (t :: ·)
      else
        match operatorType c with
        | some tt =>
            (tokenizeLoop fuel rest (pos1 + 1)).map
              (⟨tt, String.mk [c], pos1, Val.zero, 0⟩ :: ·)
        | none =>
            .error (.parseError ("Unexpected token '" ++ String.mk [c] ++
              "' at position " ++ Nat.repr pos1))

/-- `Lexer::tokenize` on the whole input string. -/
def tokenize (input : String) : Except Err (List Token) :=
  tokenizeLoop (input.data.length + 1) input.data 0

/-! ### AST (`include/AST.h`) -/

/-- `enum class UnaryOp`. -/
inductive UnaryOp where
  | Negate
deriving DecidableEq, Repr

/-- `enum class BinaryOp`. -/
inductive BinaryOp where
  | Add
  | Subtract
  | Multiply
  | Divide
  | Modulo
  | Power
deriving DecidableEq, Repr

/-- The closed node variant of `AST.h` (`NumberNode`, `VariableNode`,
`HistoryRefNode`, `UnaryNode`, `BinaryNode`, `CallNode`,
`AssignmentNode`). -/
inductive Node where
  | NumberNode (value : Val)
  | VariableNode (name : String)
  | HistoryRefNode (index : Int)
  | UnaryNode (op : UnaryOp) (operand : Node)
  | BinaryNode (op : BinaryOp) (left right : Node)
  | CallNode (name : String) (args : List Node)
  | AssignmentNode (name : String) (expr : Node)

/-! ### Parser (`src/Parser.cpp`)

The C++ parser walks the token vector with a cursor; here each function
takes the remaining token list and returns the node together with the
unconsumed rest.  The token vector always ends with one `End` token
(guaranteed by `Lexer::tokenize`), which no grammar rule can consume, so
the clamped `advance()` of the source never actually clamps.  The
mutually recursive descent is given explicit fuel, decremented at every
call; `parseTokens` supplies more fuel than any input can consume
(`fuelOut` is an artifact of the embedding, not a source behavior). -/

/-- `Parser::throwUnexpected`. -/
def throwUnexpected (t : Token) : Err :=
  .parseError ("Unexpected token '" ++
    (if t.lexeme = "" then "<end>" else t.lexeme) ++ "' at position " ++
    Nat.repr t.position)

/-- `tokens_[pos_]` (the list is never exhausted on source-reachable
inputs because `End` is never consumed; the default is junk). -/
def curTok (ts : List Token) : Token := ts.headD ⟨.End, "", 0, Val.zero, 0⟩

mutual

/-- `Parser::parseStatement`: optional `IDENT =` prefix, an expression,
then the stream must be at `End`. -/
def parseStatement : Nat → List Token → Except Err Node
  | 0, _ => .error .fuelOut
  | fuel + 1, ts =>
    let isAssignHead :=
      (curTok ts).type = TokenType.Identifier ∧
        (curTok ts.tail).type = TokenType.Assign
    match
      (if isAssignHead then
        match parseExpression fuel ts.tail.tail with
        | .error e => .error e
        | .ok (n, r) => .ok (Node.AssignmentNode (curTok ts).lexeme n, r)
      else parseExpression fuel ts) with
    | .error e => .error e
    | .ok (node, r) =>
      if (curTok r).type = TokenType.End then .ok node
      else .error (throwUnexpected (curTok r))

/-- `Parser::parseExpression`. -/
def parseExpression : Nat → List Token → Except Err (Node × List Token)
  | 0, _ => .error .fuelOut
  | fuel + 1, ts => parseAdditive fuel ts

/-- `Parser::parseAdditive` (left-associative `+`/`-` loop). -/
def parseAdditive : Nat → List Token → Except Err (Node × List Token)
  | 0, _ => .error .fuelOut
  | fuel + 1, ts =>
    match parseMultiplicative fuel ts with
    | .error e => .error e
    | .ok (n, r) => parseAdditiveLoop fuel n r

/-- The `while (true)` loop inside `Parser::parseAdditive`. -/
def parseAdditiveLoop : Nat → Node → List Token → Except Err (Node × List Token)
  | 0, _, _ => .error .fuelOut
  | fuel + 1, node, ts =>
    if (curTok ts).type = TokenType.Plus then
      match parseMultiplicative fuel ts.tail with
      | .error e => .error e
      | .ok (m, r) => parseAdditiveLoop fuel (.BinaryNode .Add node m) r
    else if (curTok ts).type = TokenType.Minus then
      match parseMultiplicative fuel ts.tail with
      | .error e => .error e
      | .ok (m, r) => parseAdditiveLoop fuel (.BinaryNode .Subtract node m) r
    else .ok (node, ts)

/-- `Parser::parseMultiplicative` (left-associative `*`/`/`/`%` loop). -/
def parseMultiplicative : Nat → List Token → Except Err (Node × List Token)
  | 0, _ => .error .fuelOut
  | fuel + 1, ts =>
    match parseUnary fuel ts with
    | .error e => .error e
    | .ok (n, r) => parseMultiplicativeLoop fuel n r

/-- The `while (true)` loop inside `Parser::parseMultiplicative`. -/
def parseMultiplicativeLoop : Nat → Node → List Token → Except Err (Node × List Token)
  | 0, _, _ => .error .fuelOut
  | fuel + 1, node, ts =>
    if (curTok ts).type = TokenType.Star then
      match parseUnary fuel ts.tail with
      | .error e => .error e
      | .ok (m, r) => parseMultiplicativeLoop fuel (.BinaryNode .Multiply node m) r
    else if (curTok ts).type = TokenType.Slash then
      match parseUnary fuel ts.tail with
      | .error e => .error e
      | .ok (m, r) => parseMultiplicativeLoop fuel (.BinaryNode .Divide node m) r
    else if (curTok ts).type = TokenType.Percent then
      match parseUnary fuel ts.tail with
      | .error e => .error e
      | .ok (m, r) => parseMultiplicativeLoop fuel (.BinaryNode .Modulo node m) r
    else .ok (node, ts)

/-- `Parser::parseUnary`: a leading `-` recurses into `parseUnary`,
otherwise fall through to `parsePower`. -/
def parseUnary : Nat → List Token → Except Err (Node × List Token)
  | 0, _ => .error .fuelOut
  | fuel + 1, ts =>
    if (curTok ts).type = TokenType.Minus then
      match parseUnary fuel ts.tail with
      | .error e => .error e
      | .ok (n, r) => .ok (.UnaryNode .Negate n, r)
    else parsePower fuel ts

/-- `Parser::parsePower`: a primary, then at most one `^` whose right
operand is a `parseUnary` (right recursion makes `^` right-associative
and lets a unary minus follow `^`). -/
def parsePower : Nat → List Token → Except Err (Node × List Token)
  | 0, _ => .error .fuelOut
  | fuel + 1, ts =>
    match parsePrimary fuel ts with
    | .error e => .error e
    | .ok (n, r) =>
      if (curTok r).type = TokenType.Caret then
        match parseUnary fuel r.tail with
        | .error e => .error e
        | .ok (m, r2) => .ok (.BinaryNode .Power n m, r2)
      else .ok (n, r)

/-- `Parser::parsePrimary`: number, history reference, identifier
(variable or call), or parenthesized expression. -/
def parsePrimary : Nat → List Token → Except Err (Node × List Token)
  | 0, _ => .error .fuelOut
  | fuel + 1, ts =>
    let t := curTok ts
    if t.type = TokenType.Number then .ok (.NumberNode t.number_value, ts.tail)
    else if t.type = TokenType.HistoryRef then
      .ok (.HistoryRefNode t.history_index, ts.tail)
    else if t.type = TokenType.Identifier then
      if (curTok ts.tail).type = TokenType.LParen then
        if (curTok ts.tail.tail).type = TokenType.RParen then
          .ok (.CallNode t.lexeme [], ts.tail.tail.tail)
        else
          match parseArgsLoop fuel ts.tail.tail with
          | .error e => .error e
          | .ok (args, r) =>
            if (curTok r).type = TokenType.RParen then
              .ok (.CallNode t.lexeme args, r.tail)
            else .error (throwUnexpected (curTok r))
      else .ok (.VariableNode t.lexeme, ts.tail)
    else if t.type = TokenType.LParen then
      match parseExpression fuel ts.tail with
      | .error e => .error e
      | .ok (n, r) =>
        if (curTok r).type = TokenType.RParen then .ok (n, r.tail)
        else .error (throwUnexpected (curTok r))
    else .error (throwUnexpected t)

/-- The argument loop inside `Parser::parsePrimary`
(`expression (, expression)*`). -/
def parseArgsLoop : Nat → List Token → Except Err (List Node × List Token)
  | 0, _ => .error .fuelOut
  | fuel + 1, ts =>
    match parseExpression fuel ts with
    | .error e => .error e
    | .ok (a, r) =>
      if (curTok r).type = TokenType.Comma then
        match parseArgsLoop fuel r.tail with
        | .error e => .error e
        | .ok (as, r2) => .ok (a :: as, r2)
      else .ok ([a], r)

end

/-- Entry point used by `Calculator::evaluate`: `Parser(tokens).parseStatement()`.
The supplied fuel exceeds any possible consumption: between two
consumed tokens the descent chain can only go through a bounded number
of calls. -/
def parseTokens (ts : List Token) : Except Err Node :=
  parseStatement (10 * ts.length + 10) ts

/-! ### Environment (`src/Context.cpp`) -/

/-- Lookup in an association list (the model of the
`std::unordered_map` of variables; ordering is irrelevant, lookup is by
key). -/
def assocLookup (vars : List (String × Val)) (name : String) : Option Val :=
  match vars with
  | [] => none
  | (k, v) :: rest => if k = name then some v else assocLookup rest name

/-- Key update in the association list (the `variables_[name] = value`
of `unordered_map::operator[]`: overwrite if present, insert if not). -/
def assocUpdate (vars : List (String × Val)) (name : String) (v : Val) :
    List (String × Val) :=
  match vars with
  | [] => [(name, v)]
  | (k, w) :: rest =>
    if k = name then (name, v) :: rest else (k, w) :: assocUpdate rest name v

/-- `class EvaluationContext`: variable bindings plus the append-only
history. -/
structure EvaluationContext where
  vars : List (String × Val)
  history : List Val
deriving DecidableEq

/-- `EvaluationContext::EvaluationContext()`: seeds `pi = acos(-1)` and
`e = exp(1)`. -/
def initialContext : EvaluationContext :=
  ⟨[("pi", piVal), ("e", eVal)], []⟩

/-- `EvaluationContext::hasVariable`. -/
def EvaluationContext.hasVariable (ctx : EvaluationContext) (name : String) : Bool :=
  (assocLookup ctx.vars name).isSome

/-- `EvaluationContext::getVariable`: throws `EvalError` if absent. -/
def EvaluationContext.getVariable (ctx : EvaluationContext) (name : String) :
    Except Err Val :=
  match assocLookup ctx.vars name with
  | some v => .ok v
  | none => .error (.evalError ("Unknown variable '" ++ name ++ "'"))

/-- `EvaluationContext::setVariable`: rejects the protected constants
`pi` and `e`, otherwise overwrites/creates the binding. -/
def EvaluationContext.setVariable (ctx : EvaluationContext) (name : String)
    (v : Val) : Except Err EvaluationContext :=
  if name = "pi" ∨ name = "e" then
    .error (.evalError ("Cannot assign to constant '" ++ name ++ "'"))
  else
    .ok { ctx with vars := assocUpdate ctx.vars name v }

/-- `EvaluationContext::pushHistory`: unconditional append. -/
def EvaluationContext.pushHistory (ctx : EvaluationContext) (v : Val) :
    EvaluationContext :=
  { ctx with history := ctx.history ++ [v] }

/-- `EvaluationContext::getHistoryValue`: 1-based lookup, failing
outside `[1, history_.size()]`. -/
def EvaluationContext.getHistoryValue (ctx : EvaluationContext) (i : Int) :
    Except Err Val :=
  if i ≤ 0 ∨ (ctx.history.length : Int) < i then
    .error (.evalError ("History reference '$" ++ Int.repr i ++ "' out of range"))
  else
    .ok (ctx.history.getD (i.toNat - 1) Val.zero)

/-! ### Evaluator (`src/Evaluator.cpp`)

The C++ evaluator mutates the context in place and propagates failures
as exceptions, so the context's partial mutations survive a throw.  The
embedding makes that explicit: `evalNode` returns the (possibly
modified) context alongside the result, in both the success and the
error case. -/

/-- `requireArgCount` (anonymous namespace of `Evaluator.cpp`). -/
def requireArgCount (name : String) (args : List Val) (expected : Nat) :
    Except Err Unit :=
  if args.length ≠ expected then
    .error (.evalError ("Function '" ++ name ++ "' expects " ++
      Nat.repr expected ++ " argument" ++ (if expected = 1 then "" else "s") ++
      " but got " ++ Nat.repr args.length))
  else .ok ()

/-- `requireAtLeastArgs` (anonymous namespace of `Evaluator.cpp`). -/
def requireAtLeastArgs (name : String) (args : List Val) (minCount : Nat) :
    Except Err Unit :=
  if args.length < minCount then
    .error (.evalError ("Function '" ++ name ++ "' expects at least " ++
      Nat.repr minCount ++ " argument" ++ (if minCount = 1 then "" else "s") ++
      " but got " ++ Nat.repr args.length))
  else .ok ()

/-- The operator dispatch of `Evaluator::evalBinary` (operands already
evaluated): divide/modulo first compare `|rhs|` against
`kZeroEpsilon`. -/
def applyBinary (op : BinaryOp) (lhs rhs : Val) : Except Err Val :=
  match op with
  | .Add => .ok (Val.add lhs rhs)
  | .Subtract => .ok (Val.sub lhs rhs)
  | .Multiply => .ok (Val.mul lhs rhs)
  | .Divide =>
    if Val.lt (Val.abs rhs) kZeroEpsilon then
      .error (.evalError "Division by zero")
    else .ok (Val.div lhs rhs)
  | .Modulo =>
    if Val.lt (Val.abs rhs) kZeroEpsilon then
      .error (.evalError "Modulo by zero")
    else .ok (Val.fmod lhs rhs)
  | .Power => .ok (Val.powModel lhs rhs)

/-- The builtin-table dispatch of `Evaluator::evalCall` (arguments
already evaluated): fixed names, arity checks, then the primitive. -/
def evalCallFn (fn : String) (args : List Val) : Except Err Val :=
  if fn = "sin" then
    match requireArgCount fn args 1 with
    | .error e => .error e
    | .ok _ => .ok (Val.sinModel (args.headD Val.zero))
  else if fn = "cos" then
    match requireArgCount fn args 1 with
    | .error e => .error e
    | .ok _ => .ok (Val.cosModel (args.headD Val.zero))
  else if fn = "tan" then
    match requireArgCount fn args 1 with
    | .error e => .error e
    | .ok _ => .ok (Val.tanModel (args.headD Val.zero))
  else if fn = "sqrt" then
    match requireArgCount fn args 1 with
    | .error e => .error e
    | .ok _ => .ok (Val.sqrtModel (args.headD Val.zero))
  else if fn = "log" then
    match requireArgCount fn args 1 with
    | .error e => .error e
    | .ok _ => .ok (Val.logModel (args.headD Val.zero))
  else if fn = "log10" then
    match requireArgCount fn args 1 with
    | .error e => .error e
    | .ok _ => .ok (Val.log10Model (args.headD Val.zero))
  else if fn = "abs" then
    match requireArgCount fn args 1 with
    | .error e => .error e
    | .ok _ => .ok (Val.abs (args.headD Val.zero))
  else if fn = "ceil" then
    match requireArgCount fn args 1 with
    | .error e => .error e
    | .ok _ => .ok (Val.ceilModel (args.headD Val.zero))
  else if fn = "floor" then
    match requireArgCount fn args 1 with
    | .error e => .error e
    | .ok _ => .ok (Val.floorModel (args.headD Val.zero))
  else if fn = "min" then
    match requireAtLeastArgs fn args 1 with
    | .error e => .error e
    | .ok _ => .ok (args.tail.foldl Val.minV (args.headD Val.zero))
  else if fn = "max" then
    match requireAtLeastArgs fn args 1 with
    | .error e => .error e
    | .ok _ => .ok (args.tail.foldl Val.maxV (args.headD Val.zero))
  else .error (.evalError ("Unknown function '" ++ fn ++ "'"))

mutual

/-- `Evaluator::evalNode`: post-order walk; binary operands left then
right; call arguments left to right; assignment evaluates the
right-hand side first, then `setVariable`.  The context is threaded and
returned also on failure (C++ exceptions leave prior mutations in
place). -/
def evalNode : Node → EvaluationContext →
    (Except Err Val) × EvaluationContext
  | .NumberNode v, ctx => (.ok v, ctx)
  | .VariableNode name, ctx => (ctx.getVariable name, ctx)
  | .HistoryRefNode i, ctx => (ctx.getHistoryValue i, ctx)
  | .UnaryNode .Negate n, ctx =>
    match evalNode n ctx with
    | (.error e, c) => (.error e, c)
    | (.ok v, c) => (.ok (Val.neg v), c)
  | .BinaryNode op l r, ctx =>
    match evalNode l ctx with
    | (.error e, c) => (.error e, c)
    | (.ok lv, c1) =>
      match evalNode r c1 with
      | (.error e, c) => (.error e, c)
      | (.ok rv, c2) => (applyBinary op lv rv, c2)
  | .CallNode name args, ctx =>
    match evalArgs args ctx with
    | (.error e, c) => (.error e, c)
    | (.ok vs, c) => (evalCallFn name vs, c)
  | .AssignmentNode name e, ctx =>
    match evalNode e ctx with
    | (.error err, c) => (.error err, c)
    | (.ok v, c) =>
      match c.setVariable name v with
      | .error err => (.error err, c)
      | .ok c2 => (.ok v, c2)

/-- The argument-evaluation loop of `Evaluator::evalCall` (left to
right, aborting on the first failure). -/
def evalArgs : List Node → EvaluationContext →
    (Except Err (List Val)) × EvaluationContext
  | [], ctx => (.ok [], ctx)
  | a :: as, ctx =>
    match evalNode a ctx with
    | (.error e, c) => (.error e, c)
    | (.ok v, c1) =>
      match evalArgs as c1 with
      | (.error e, c) => (.error e, c)
      | (.ok vs, c2) => (.ok (v :: vs), c2)

end

/-! ### Session facade (`src/Calculator.cpp`) -/

/-- `Calculator::evaluate`: tokenize, parse, evaluate, and on success
push the value onto the history.  A failure at any stage aborts the
call; the context is returned as the exception would leave it. -/
def Calculator.evaluate (text : String) (ctx : EvaluationContext) :
    (Except Err Val) × EvaluationContext :=
  match tokenize text with
  | .error e => (.error e, ctx)
  | .ok toks =>
    match parseTokens toks with
    | .error e => (.error e, ctx)
    | .ok node =>
      match evalNode node ctx with
      | (.error e, c) => (.error e, c)
      | (.ok v, c) => (.ok v, c.pushHistory v)

/-! ### Structural facts used by several claims

The grammar only produces `AssignmentNode` at the very top of a
statement; inside expressions no assignment can occur.  Together with
the evaluator's context threading this yields the frame properties of
`Calculator::evaluate`. -/

mutual

/-- `true` iff no `AssignmentNode` occurs anywhere in the tree. -/
def noAssign : Node → Bool
  | .NumberNode _ => true
  | .VariableNode _ => true
  | .HistoryRefNode _ => true
  | .UnaryNode _ n => noAssign n
  | .BinaryNode _ l r => noAssign l && noAssign r
  | .CallNode _ args => noAssignList args
  | .AssignmentNode _ _ => false

/-- `noAssign` over an argument list. -/
def noAssignList : List Node → Bool
  | [] => true
  | a :: as => noAssign a && noAssignList as

end

/-- The lex-then-parse composition used inside `Calculator::evaluate`
(`Parser(lexer.tokenize()).parseStatement()`), without the evaluation
stage: convenient for stating parse-tree facts. -/
def parseText (s : String) : Except Err Node :=
  match tokenize s with
  | .error e => .error e
  | .ok ts => parseTokens ts

/-- The contexts reachable from a fresh `Calculator` by any sequence of
`evaluate` calls (successful or failing). -/
inductive Reachable : EvaluationContext → Prop where
  | init : Reachable initialContext
  | step (text : String) {ctx : EvaluationContext} :
      Reachable ctx → Reachable (Calculator.evaluate text ctx).2

/-- Every parser production below the statement level yields
assignment-free trees (the grammar recognizes `=` only at the head of a
statement).  Stated for all components of the mutual recursion at every
fuel. -/
theorem parser_noAssign (fuel : Nat) :
    (∀ ts n r, parseExpression fuel ts = .ok (n, r) → noAssign n = true) ∧
    (∀ ts n r, parseAdditive fuel ts = .ok (n, r) → noAssign n = true) ∧
    (∀ acc ts n r, noAssign acc = true →
      parseAdditiveLoop fuel acc ts = .ok (n, r) → noAssign n = true) ∧
    (∀ ts n r, parseMultiplicative fuel ts = .ok (n, r) → noAssign n = true) ∧
    (∀ acc ts n r, noAssign acc = true →
      parseMultiplicativeLoop fuel acc ts = .ok (n, r) → noAssign n = true) ∧
    (∀ ts n r, parseUnary fuel ts = .ok (n, r) → noAssign n = true) ∧
    (∀ ts n r, parsePower fuel ts = .ok (n, r) → noAssign n = true) ∧
    (∀ ts n r, parsePrimary fuel ts = .ok (n, r) → noAssign n = true) ∧
    (∀ ts as r, parseArgsLoop fuel ts = .ok (as, r) → noAssignList as = true) := by
  induction fuel with
  | zero =>
    refine ⟨?_, ?_, ?_, ?_, ?_, ?_, ?_, ?_, ?_⟩
    · intro ts n r h; simp [parseExpression] at h
    · intro ts n r h; simp [parseAdditive] at h
    · intro acc ts n r _ h; simp [parseAdditiveLoop] at h
    · intro ts n r h; simp [parseMultiplicative] at h
    · intro acc ts n r _ h; simp [parseMultiplicativeLoop] at h
    · intro ts n r h; simp [parseUnary] at h
    · intro ts n r h; simp [parsePower] at h
    · intro ts n r h; simp [parsePrimary] at h
    · intro ts as r h; simp [parseArgsLoop] at h
  | succ f ih =>
    obtain ⟨ihE, ihA, ihAL, ihM, ihML, ihU, ihPow, ihPr, ihArgs⟩ := ih
    refine ⟨?_, ?_, ?_, ?_, ?_, ?_, ?_, ?_, ?_⟩
    · -- parseExpression
      intro ts n r h
      simp only [parseExpression] at h
      exact ihA ts n r h
    · -- parseAdditive
      intro ts n r h
      simp only [parseAdditive] at h
      split at h
      next e heq => cases h
      next n0 r0 heq => exact ihAL n0 r0 n r (ihM ts n0 r0 heq) h
    · -- parseAdditiveLoop
      intro acc ts n r hacc h
      simp only [parseAdditiveLoop] at h
      split at h
      · split at h
        next e heq => cases h
        next m r1 heq =>
          exact ihAL _ _ _ _ (by simp [noAssign, hacc, ihM _ _ _ heq]) h
      · split at h
        · split at h
          next e heq => cases h
          next m r1 heq =>
            exact ihAL _ _ _ _ (by simp [noAssign, hacc, ihM _ _ _ heq]) h
        · cases h; exact hacc
    · -- parseMultiplicative
      intro ts n r h
      simp only [parseMultiplicative] at h
      split at h
      next e heq => cases h
      next n0 r0 heq => exact ihML n0 r0 n r (ihU ts n0 r0 heq) h
    · -- parseMultiplicativeLoop
      intro acc ts n r hacc h
      simp only [parseMultiplicativeLoop] at h
      split at h
      · split at h
        next e heq => cases h
        next m r1 heq =>
          exact ihML _ _ _ _ (by simp [noAssign, hacc, ihU _ _ _ heq]) h
      · split at h
        · split at h
          next e heq => cases h
          next m r1 heq =>
            exact ihML _ _ _ _ (by simp [noAssign, hacc, ihU _ _ _ heq]) h
        · split at h
          · split at h
            next e heq => cases h
            next m r1 heq =>
              exact ihML _ _ _ _ (by simp [noAssign, hacc, ihU _ _ _ heq]) h
          · cases h; exact hacc
    · -- parseUnary
      intro ts n r h
      simp only [parseUnary] at h
      split at h
      · split at h
        next e heq => cases h
        next m r1 heq => cases h; simpa [noAssign] using ihU _ _ _ heq
      · exact ihPow ts n r h
    · -- parsePower
      intro ts n r h
      simp only [parsePower] at h
      split at h
      next e heq => cases h
      next n0 r0 heq =>
        split at h
        · split at h
          next e heq2 => cases h
          next m r2 heq2 =>
            cases h
            simp [noAssign, ihPr _ _ _ heq, ihU _ _ _ heq2]
        · cases h; exact ihPr _ _ _ heq
    · -- parsePrimary
      intro ts n r h
      simp only [parsePrimary] at h
      split at h
      · cases h; simp [noAssign]
      · split at h
        · cases h; simp [noAssign]
        · split at h
          · split at h
            · split at h
              · cases h; simp [noAssign, noAssignList]
              · split at h
                next e heq => cases h
                next args r1 heq =>
                  split at h
                  · cases h
                    simpa [noAssign] using ihArgs _ _ _ heq
                  · cases h
            · cases h; simp [noAssign]
          · split at h
            · split at h
              next e heq => cases h
              next n0 r0 heq =>
                split at h
                · cases h; exact ihE _ _ _ heq
                · cases h
            · cases h
    · -- parseArgsLoop
      intro ts as r h
      simp only [parseArgsLoop] at h
      split at h
      next e heq => cases h
      next a r1 heq =>
        split at h
        · split at h
          next e heq2 => cases h
          next as2 r2 heq2 =>
            cases h
            simp [noAssignList, ihE _ _ _ heq, ihArgs _ _ _ heq2]
        · cases h
          simp [noAssignList, ihE _ _ _ heq]

/-- Shape of a parsed statement: either assignment-free, or a top-level
assignment whose right-hand side is assignment-free. -/
theorem parseTokens_shape (ts : List Token) (node : Node)
    (h : parseTokens ts = .ok node) :
    noAssign node = true ∨
      ∃ name en, node = .AssignmentNode name en ∧ noAssign en = true := by
  unfold parseTokens at h
  have hfuel : 10 * ts.length + 10 = (10 * ts.length + 9) + 1 := rfl
  rw [hfuel] at h
  simp only [parseStatement] at h
  split at h
  next e heq => cases h
  next n0 r0 heq =>
    split at h
    case isTrue =>
      cases h
      split at heq
      · split at heq
        next e heq2 => cases heq
        next m r1 heq2 =>
          cases heq
          exact Or.inr ⟨_, _, rfl, (parser_noAssign _).1 _ _ _ heq2⟩
      · exact Or.inl ((parser_noAssign _).1 _ _ _ heq)
    case isFalse => cases h

/-- Lookup after updating a different key is unchanged. -/
theorem assocLookup_update_ne (vars : List (String × Val)) (name : String)
    (v : Val) (m : String) (h : m ≠ name) :
    assocLookup (assocUpdate vars name v) m = assocLookup vars m := by
  induction vars with
  | nil => simp [assocUpdate, assocLookup, Ne.symm h]
  | cons kv rest ih =>
    obtain ⟨k, w⟩ := kv
    by_cases hk : k = name
    · simp [assocUpdate, hk, assocLookup, Ne.symm h]
    · simp [assocUpdate, hk, assocLookup, ih]

/-- Lookup after updating the same key yields the new value. -/
theorem assocLookup_update_self (vars : List (String × Val)) (name : String)
    (v : Val) :
    assocLookup (assocUpdate vars name v) name = some v := by
  induction vars with
  | nil => simp [assocUpdate, assocLookup]
  | cons kv rest ih =>
    obtain ⟨k, w⟩ := kv
    by_cases hk : k = name
    · simp [assocUpdate, hk, assocLookup]
    · simp [assocUpdate, hk, assocLookup, ih]

mutual

/-- Evaluating an assignment-free tree never changes the context (the
only mutation the evaluator performs is `setVariable` in the
`AssignmentNode` case). -/
theorem evalNode_frame : ∀ (n : Node) (ctx : EvaluationContext),
    noAssign n = true → (evalNode n ctx).2 = ctx
  | .NumberNode _, _, _ => rfl
  | .VariableNode _, _, _ => rfl
  | .HistoryRefNode _, _, _ => rfl
  | .UnaryNode .Negate m, ctx, h => by
    rcases hm : evalNode m ctx with ⟨res, c⟩
    have ih : c = ctx := by
      have hfr := evalNode_frame m ctx (by simpa [noAssign] using h)
      rw [hm] at hfr; exact hfr
    cases res <;> simp [evalNode, hm, ih]
  | .BinaryNode op l r, ctx, h => by
    have hl : noAssign l = true := by
      have hb := h; simp [noAssign, Bool.and_eq_true] at hb; exact hb.1
    have hr : noAssign r = true := by
      have hb := h; simp [noAssign, Bool.and_eq_true] at hb; exact hb.2
    rcases hml : evalNode l ctx with ⟨res1, c1⟩
    have ih1 : c1 = ctx := by
      have hfr := evalNode_frame l ctx hl; rw [hml] at hfr; exact hfr
    cases res1 with
    | error e => simp [evalNode, hml, ih1]
    | ok lv =>
      rcases hmr : evalNode r c1 with ⟨res2, c2⟩
      have ih2 : c2 = c1 := by
        have hfr := evalNode_frame r c1 hr; rw [hmr] at hfr; exact hfr
      cases res2 <;> (simp [evalNode, hml, hmr]; exact ih2.trans ih1)
  | .CallNode name args, ctx, h => by
    rcases hm : evalArgs args ctx with ⟨res, c⟩
    have ih : c = ctx := by
      have hfr := evalArgs_frame args ctx (by simpa [noAssign] using h)
      rw [hm] at hfr; exact hfr
    cases res <;> simp [evalNode, hm, ih]
  | .AssignmentNode _ _, _, h => by simp [noAssign] at h

/-- `evalArgs` version of `evalNode_frame`. -/
theorem evalArgs_frame : ∀ (args : List Node) (ctx : EvaluationContext),
    noAssignList args = true → (evalArgs args ctx).2 = ctx
  | [], _, _ => rfl
  | a :: as, ctx, h => by
    have ha : noAssign a = true := by
      have hb := h; simp [noAssignList, Bool.and_eq_true] at hb; exact hb.1
    have has : noAssignList as = true := by
      have hb := h; simp [noAssignList, Bool.and_eq_true] at hb; exact hb.2
    rcases hma : evalNode a ctx with ⟨res1, c1⟩
    have ih1 : c1 = ctx := by
      have hfr := evalNode_frame a ctx ha; rw [hma] at hfr; exact hfr
    cases res1 with
    | error e => simp [evalArgs, hma, ih1]
    | ok v =>
      rcases hmas : evalArgs as c1 with ⟨res2, c2⟩
      have ih2 : c2 = c1 := by
        have hfr := evalArgs_frame as c1 has; rw [hmas] at hfr; exact hfr
      cases res2 <;> (simp [evalArgs, hma, hmas]; exact ih2.trans ih1)

end

/-- Context change of evaluating a well-formed top-level statement:
failure leaves the context untouched; success leaves it untouched except
that a top-level assignment updates the target binding. -/
theorem evalNode_statement (node : Node) (ctx : EvaluationContext)
    (hshape : noAssign node = true ∨
      ∃ name en, node = .AssignmentNode name en ∧ noAssign en = true) :
    ((∀ e, (evalNode node ctx).1 = .error e → (evalNode node ctx).2 = ctx) ∧
     (∀ v, (evalNode node ctx).1 = .ok v →
        ((noAssign node = true ∧ (evalNode node ctx).2 = ctx) ∨
         (∃ name en, node = .AssignmentNode name en ∧
           ¬(name = "pi" ∨ name = "e") ∧
           (evalNode node ctx).2 =
             { ctx with vars := assocUpdate ctx.vars name v })))) := by
  rcases hshape with hna | ⟨name, en, rfl, hen⟩
  · have hframe := evalNode_frame node ctx hna
    exact ⟨fun e _ => hframe, fun v _ => Or.inl ⟨hna, hframe⟩⟩
  · rcases hm : evalNode en ctx with ⟨res, c⟩
    have hframe : c = ctx := by
      have hfr := evalNode_frame en ctx hen; rw [hm] at hfr; exact hfr
    constructor
    · intro e he
      rcases res with e2 | w
      · simp [evalNode, hm, hframe]
      · by_cases hname : name = "pi" ∨ name = "e"
        · have hset : c.setVariable name w = .error
              (.evalError ("Cannot assign to constant '" ++ name ++ "'")) := by
            unfold EvaluationContext.setVariable
            rw [if_pos hname]
          simp only [evalNode, hm]
          rw [hset]
          exact hframe
        · have hset : c.setVariable name w =
              .ok { c with vars := assocUpdate c.vars name w } := by
            unfold EvaluationContext.setVariable
            rw [if_neg hname]
          simp [evalNode, hm, hset] at he
    · intro v hv
      rcases res with e2 | w
      · simp [evalNode, hm] at hv
      · by_cases hname : name = "pi" ∨ name = "e"
        · have hset : c.setVariable name w = .error
              (.evalError ("Cannot assign to constant '" ++ name ++ "'")) := by
            unfold EvaluationContext.setVariable
            rw [if_pos hname]
          simp [evalNode, hm, hset] at hv
        · have hset : c.setVariable name w =
              .ok { c with vars := assocUpdate c.vars name w } := by
            unfold EvaluationContext.setVariable
            rw [if_neg hname]
          have hv2 : w = v := by simp [evalNode, hm, hset] at hv; exact hv
          refine Or.inr ⟨name, en, rfl, hname, ?_⟩
          simp only [evalNode, hm]
          rw [hset]
          simp [hframe, hv2]

/-- Failure frame of `Calculator::evaluate`: any error (lexical,
syntactic, evaluation, or an escaping range error) leaves the context
exactly as it was. -/
theorem evaluate_error_frame (text : String) (ctx : EvaluationContext)
    (e : Err) (h : (Calculator.evaluate text ctx).1 = .error e) :
    (Calculator.evaluate text ctx).2 = ctx := by
  unfold Calculator.evaluate at h ⊢
  rcases ht : tokenize text with e2 | toks
  · simp [ht]
  · rcases hp : parseTokens toks with e2 | node
    · simp [ht, hp]
    · rcases hm : evalNode node ctx with ⟨res, c⟩
      rcases res with e2 | v
      · have hst := (evalNode_statement node ctx
          (parseTokens_shape toks node hp)).1 e2
        rw [hm] at hst
        simp [ht, hp, hm]
        exact hst rfl
      · simp [ht, hp, hm] at h

/-- Success frame of `Calculator::evaluate`: exactly one history entry
(the returned value) is appended, and the variables either stay exactly
the same (non-assignment statement) or get exactly the target binding of
the top-level assignment updated to the returned value. -/
theorem evaluate_ok_frame (text : String) (ctx : EvaluationContext)
    (v : Val) (ctx' : EvaluationContext)
    (h : Calculator.evaluate text ctx = (.ok v, ctx')) :
    ctx'.history = ctx.history ++ [v] ∧
    ∃ toks node, tokenize text = .ok toks ∧ parseTokens toks = .ok node ∧
      ((noAssign node = true ∧ ctx'.vars = ctx.vars) ∨
       (∃ name en, node = .AssignmentNode name en ∧
         ¬(name = "pi" ∨ name = "e") ∧
         ctx'.vars = assocUpdate ctx.vars name v)) := by
  unfold Calculator.evaluate at h
  rcases ht : tokenize text with e2 | toks
  · simp [ht] at h
  · rcases hp : parseTokens toks with e2 | node
    · simp [ht, hp] at h
    · rcases hm : evalNode node ctx with ⟨res, c⟩
      rcases res with e2 | w
      · simp [ht, hp, hm] at h
      · simp only [ht, hp, hm] at h
        have h2 : ((Except.ok w : Except Err Val), c.pushHistory w) =
            (.ok v, ctx') := h
        have hw : w = v := by
          have h3 := congrArg Prod.fst h2; simpa using h3
        subst hw
        have hctx : ctx' = c.pushHistory w := (congrArg Prod.snd h2).symm
        have hshape := parseTokens_shape toks node hp
        have hst := (evalNode_statement node ctx hshape).2 w (by rw [hm])
        rw [hm] at hst
        rcases hst with ⟨hna, hc⟩ | ⟨nm, en, hnode, hname, hc⟩
        · have hc2 : c = ctx := hc
          refine ⟨?_, toks, node, rfl, hp, Or.inl ⟨hna, ?_⟩⟩
          · rw [hctx, hc2]; rfl
          · rw [hctx, hc2]; rfl
        · have hc2 : c = { ctx with vars := assocUpdate ctx.vars nm w } := hc
          refine ⟨?_, toks, node, rfl, hp,
            Or.inr ⟨nm, en, hnode, hname, ?_⟩⟩
          · rw [hctx, hc2]; rfl
          · rw [hctx, hc2]; rfl

/-! ### Claims -/

/-- C1: Failure atomicity of evaluation — for every input text and every
environment state, if `Calculator::evaluate` fails with any error
(lexical, syntax, evaluation, or an escaping range error), the
environment is left exactly as it was before the call: no history entry
is appended and no variable binding is created or changed, even when
sub-expressions had already been computed before the failure. -/
theorem claim_C1_failure_atomicity (text : String) (ctx : EvaluationContext)
    (e : Err) (h : (Calculator.evaluate text ctx).1 = .error e) :
    (Calculator.evaluate text ctx).2 = ctx ∧
    ((Calculator.evaluate text ctx).2).history = ctx.history ∧
    ((Calculator.evaluate text ctx).2).vars = ctx.vars := by
  have hfr := evaluate_error_frame text ctx e h
  exact ⟨hfr, by rw [hfr], by rw [hfr]⟩

/-- Witness for C1 at `"1/0"` (the left operand `1` is computed before
the division-by-zero failure aborts the call). -/
theorem claim_C1_witness :
    (Calculator.evaluate "1/0" initialContext).2 = initialContext ∧
    ((Calculator.evaluate "1/0" initialContext).2).history = initialContext.history ∧
    ((Calculator.evaluate "1/0" initialContext).2).vars = initialContext.vars :=
  claim_C1_failure_atomicity "1/0" initialContext
    (.evalError "Division by zero") (by decide)

/-- C3 counterexample: the claim asserts three disjoint error kinds with
a lexical error distinguishable from a syntax error; in the code both
the lexer and the parser throw the same class `calc::ParseError`, so the
lexical failure on `"@"` and the syntax failure on `"2 + * 3"` have
identical dynamic type (and the lexer can also fail with
`std::out_of_range`, which is no calculator error at all). -/
theorem claim_C3_counterexample :
    tokenize "@" = .error (.parseError "Unexpected token '@' at position 0") ∧
    (Calculator.evaluate "2 + * 3" initialContext).1 =
      .error (.parseError "Unexpected token '*' at position 4") ∧
    (Err.parseError "Unexpected token '@' at position 0").kind =
      (Err.parseError "Unexpected token '*' at position 4").kind ∧
    tokenize "$99999999999" = .error .outOfRange ∧
    Err.outOfRange.kind ≠ ErrKind.parse ∧ Err.outOfRange.kind ≠ ErrKind.eval := by
  refine ⟨by decide, by decide, rfl, by decide, by decide, by decide⟩

/-- C3 amended: the error taxonomy has two (not three) disjoint kinds
deriving from the one base calculator-error class — `ParseError`, thrown
by both the lexer and the parser (so lexical and syntax failures are not
distinguishable by kind, only by message/position), and `EvalError`,
thrown by the evaluator; additionally, out-of-range numeric or history
literals escape the lexer as `std::out_of_range`, outside the
calculator-error hierarchy. -/
theorem claim_C3_error_taxonomy :
    tokenize "@" = .error (.parseError "Unexpected token '@' at position 0") ∧
    (Calculator.evaluate "2 + * 3" initialContext).1 =
      .error (.parseError "Unexpected token '*' at position 4") ∧
    (Calculator.evaluate "foo(1)" initialContext).1 =
      .error (.evalError "Unknown function 'foo'") ∧
    (∀ m1 m2 : String, Err.parseError m1 ≠ Err.evalError m2) ∧
    (Err.parseError "Unexpected token '@' at position 0").kind = .parse ∧
    (Err.evalError "Unknown function 'foo'").kind = .eval ∧
    ErrKind.parse ≠ ErrKind.eval ∧
    tokenize "$99999999999" = .error .outOfRange ∧
    Err.outOfRange.kind ≠ ErrKind.parse ∧ Err.outOfRange.kind ≠ ErrKind.eval := by
  refine ⟨by decide, by decide, by decide, ?_, rfl, rfl, by decide, by decide,
    by decide, by decide⟩
  intro m1 m2 h
  cases h

/-- Witness for the amended C3 at its one quantified conjunct. -/
theorem claim_C3_witness :
    Err.parseError "a" ≠ Err.evalError "a" :=
  claim_C3_error_taxonomy.2.2.2.1 "a" "a"

/-- C5: `*`, `/`, `%` bind tighter than `+`, `-`; both groups associate
to the left; `^` associates to the right.  Concretely `"2 + 3 * 4"`
evaluates to 14, `"(2 + 3) * 4"` to 20, and `"2^3^2"` to 512 (2^(3^2)),
and the parse trees exhibit the grouping for each operator pair. -/
theorem claim_C5_precedence :
    (Calculator.evaluate "2 + 3 * 4" initialContext).1 = .ok ⟨14, 1⟩ ∧
    (Calculator.evaluate "(2 + 3) * 4" initialContext).1 = .ok ⟨20, 1⟩ ∧
    (Calculator.evaluate "2^3^2" initialContext).1 = .ok ⟨512, 1⟩ ∧
    parseText "1+2*3" = .ok (.BinaryNode .Add (.NumberNode ⟨1, 1⟩)
      (.BinaryNode .Multiply (.NumberNode ⟨2, 1⟩) (.NumberNode ⟨3, 1⟩))) ∧
    parseText "1-2/3" = .ok (.BinaryNode .Subtract (.NumberNode ⟨1, 1⟩)
      (.BinaryNode .Divide (.NumberNode ⟨2, 1⟩) (.NumberNode ⟨3, 1⟩))) ∧
    parseText "1+2%3" = .ok (.BinaryNode .Add (.NumberNode ⟨1, 1⟩)
      (.BinaryNode .Modulo (.NumberNode ⟨2, 1⟩) (.NumberNode ⟨3, 1⟩))) ∧
    parseText "1-2+3" = .ok (.BinaryNode .Add
      (.BinaryNode .Subtract (.NumberNode ⟨1, 1⟩) (.NumberNode ⟨2, 1⟩))
      (.NumberNode ⟨3, 1⟩)) ∧
    parseText "8/4*2" = .ok (.BinaryNode .Multiply
      (.BinaryNode .Divide (.NumberNode ⟨8, 1⟩) (.NumberNode ⟨4, 1⟩))
      (.NumberNode ⟨2, 1⟩)) ∧
    parseText "10%3%2" = .ok (.BinaryNode .Modulo
      (.BinaryNode .Modulo (.NumberNode ⟨10, 1⟩) (.NumberNode ⟨3, 1⟩))
      (.NumberNode ⟨2, 1⟩)) ∧
    parseText "2^3^2" = .ok (.BinaryNode .Power (.NumberNode ⟨2, 1⟩)
      (.BinaryNode .Power (.NumberNode ⟨3, 1⟩) (.NumberNode ⟨2, 1⟩))) :=
  ⟨by decide, by decide, by decide, rfl, rfl, rfl, rfl, rfl, rfl, rfl⟩

/-- C8: success frame — a successful `evaluate` appends exactly the
returned value at the end of the history, keeps all pre-existing history
entries, and changes variable bindings exactly when the parsed statement
is an assignment, in which case only the target name is (re)bound, to
the returned value; for a non-assignment statement the variables are
untouched. -/
theorem claim_C8_success_frame (text : String) (ctx : EvaluationContext)
    (v : Val) (ctx' : EvaluationContext)
    (h : Calculator.evaluate text ctx = (.ok v, ctx')) :
    ctx'.history = ctx.history ++ [v] ∧
    ∃ toks node, tokenize text = .ok toks ∧ parseTokens toks = .ok node ∧
      ((noAssign node = true ∧ ctx'.vars = ctx.vars) ∨
       (∃ name en, node = .AssignmentNode name en ∧
         assocLookup ctx'.vars name = some v ∧
         (∀ m, m ≠ name → assocLookup ctx'.vars m = assocLookup ctx.vars m))) := by
  obtain ⟨hh, toks, node, ht, hp, hrest⟩ := evaluate_ok_frame text ctx v ctx' h
  refine ⟨hh, toks, node, ht, hp, ?_⟩
  rcases hrest with ⟨hna, hv⟩ | ⟨name, en, hnode, hname, hv⟩
  · exact Or.inl ⟨hna, hv⟩
  · refine Or.inr ⟨name, en, hnode, ?_, ?_⟩
    · rw [hv]; exact assocLookup_update_self ctx.vars name v
    · intro m hm; rw [hv]; exact assocLookup_update_ne ctx.vars name v m hm

/-- Witness for C8 at the assignment `"x = 5"`. -/
theorem claim_C8_witness :
    (⟨[("pi", piVal), ("e", eVal), ("x", ⟨5, 1⟩)], [⟨5, 1⟩]⟩ :
        EvaluationContext).history = initialContext.history ++ [⟨5, 1⟩] ∧
    ∃ toks node, tokenize "x = 5" = .ok toks ∧ parseTokens toks = .ok node ∧
      ((noAssign node = true ∧
        (⟨[("pi", piVal), ("e", eVal), ("x", ⟨5, 1⟩)], [⟨5, 1⟩]⟩ :
          EvaluationContext).vars = initialContext.vars) ∨
       (∃ name en, node = .AssignmentNode name en ∧
         assocLookup (⟨[("pi", piVal), ("e", eVal), ("x", ⟨5, 1⟩)], [⟨5, 1⟩]⟩ :
           EvaluationContext).vars name = some ⟨5, 1⟩ ∧
         (∀ m, m ≠ name →
           assocLookup (⟨[("pi", piVal), ("e", eVal), ("x", ⟨5, 1⟩)], [⟨5, 1⟩]⟩ :
             EvaluationContext).vars m = assocLookup initialContext.vars m))) :=
  claim_C8_success_frame "x = 5" initialContext ⟨5, 1⟩
    ⟨[("pi", piVal), ("e", eVal), ("x", ⟨5, 1⟩)], [⟨5, 1⟩]⟩ (by decide)

/-- One step of the lexer loop on exhausted input emits the `End`
token. -/
theorem tokenizeLoop_nil (fuel pos : Nat) :
    tokenizeLoop (fuel + 1) [] pos = .ok [⟨.End, "", pos, Val.zero, 0⟩] := by
  simp [tokenizeLoop]

/-- `Lexer::lexHistoryRef` on `'$'` followed by digits only: decodes the
1-based index, throwing `std::out_of_range` above `INT_MAX`. -/
theorem lexHistoryRef_digits (ds : List Char) (h1 : ds ≠ [])
    (h2 : ∀ c ∈ ds, isDigitC c = true) (pos : Nat) :
    lexHistoryRef ('$' :: ds) pos =
      if intMax < natOfDigits ds then .error .outOfRange
      else .ok (⟨.HistoryRef, String.mk ('$' :: ds), pos, Val.zero,
        (natOfDigits ds : Int)⟩, [], pos + 1 + ds.length) := by
  unfold lexHistoryRef
  have hdig : ds.takeWhile isDigitC = ds := List.takeWhile_eq_self_iff.mpr h2
  simp only [List.tail_cons, hdig]
  rw [if_neg (by simpa using h1)]
  rw [List.drop_length]

/-- One step of the lexer loop on a history reference (generic fuel). -/
theorem tokenizeLoop_historyRef (f : Nat) (ds : List Char) (h1 : ds ≠ [])
    (h2 : ∀ c ∈ ds, isDigitC c = true) :
    tokenizeLoop (f + 1) ('$' :: ds) 0 =
      if intMax < natOfDigits ds then .error .outOfRange
      else (tokenizeLoop f [] (1 + ds.length)).map
        ((⟨.HistoryRef, String.mk ('$' :: ds), 0, Val.zero,
          (natOfDigits ds : Int)⟩ : Token) :: ·) := by
  simp only [tokenizeLoop]
  rw [show List.takeWhile isSpaceC ('$' :: ds) = [] from by
    rw [List.takeWhile_cons, show isSpaceC '$' = false from rfl]; simp]
  simp only [List.length_nil, List.drop_zero, Nat.add_zero, Nat.zero_add]
  rw [if_neg (by simp [show isDigitC '$' = false from rfl,
    show ('$' = '.') = False from by simp])]
  rw [if_neg (by simp [show isIdentifierStart '$' = false from rfl])]
  rw [if_pos trivial]
  rw [lexHistoryRef_digits ds h1 h2 0]
  by_cases hc : intMax < natOfDigits ds
  · rw [if_pos hc, if_pos hc]
  · rw [if_neg hc, if_neg hc]

/-- `Lexer::tokenize` on `'$'` followed by digits: one `HistoryRef`
token then `End` when the decoded index fits in `int`, otherwise the
`std::out_of_range` from `std::stoi`. -/
theorem tokenize_historyRef (ds : List Char) (h1 : ds ≠ [])
    (h2 : ∀ c ∈ ds, isDigitC c = true) :
    tokenize (String.mk ('$' :: ds)) =
      if intMax < natOfDigits ds then .error .outOfRange
      else .ok [⟨.HistoryRef, String.mk ('$' :: ds), 0, Val.zero,
          (natOfDigits ds : Int)⟩,
        ⟨.End, "", 1 + ds.length, Val.zero, 0⟩] := by
  show tokenizeLoop (('$' :: ds).length + 1) ('$' :: ds) 0 = _
  rw [show ('$' :: ds).length + 1 = (ds.length + 1) + 1 from by simp]
  rw [tokenizeLoop_historyRef (ds.length + 1) ds h1 h2]
  by_cases hc : intMax < natOfDigits ds
  · rw [if_pos hc, if_pos hc]
  · rw [if_neg hc, if_neg hc]
    rw [show ds.length + 1 = ds.length + 1 from rfl,
      tokenizeLoop_nil ds.length (1 + ds.length)]
    rfl


/-- `isIdentifierStart` characters are also `isIdentifierPart`
characters (letters and underscore are letters, digits or underscore). -/
theorem identifierStart_part (c : Char) (h : isIdentifierStart c = true) :
    isIdentifierPart c = true := by
  simp only [isIdentifierStart, Bool.or_eq_true] at h
  simp only [isIdentifierPart, Bool.or_eq_true]
  tauto

/-- `lexNumberFinish` either throws `std::out_of_range` or succeeds,
returning exactly the remaining input and position it was given. -/
theorem lexNumberFinish_classify (cs : List Char) (start posE : Nat) (rE : List Char) :
    lexNumberFinish cs start posE rE = .error .outOfRange ∨
      ∃ tk, lexNumberFinish cs start posE rE = .ok (tk, rE, posE) := by
  simp only [lexNumberFinish]
  split
  · exact Or.inl rfl
  · exact Or.inr ⟨_, rfl⟩

/-- Helper shaping a `lexNumberFinish` call into the lexer-result
classification, with any bound on the remaining input's length. -/
theorem lexNumberFinish_cases (cs : List Char) (start : Nat) (P : Nat) (R : List Char)
    (n : Nat) (hR : R.length ≤ n) :
    (∃ msg, lexNumberFinish cs start P R = .error (.parseError msg)) ∨
    lexNumberFinish cs start P R = .error .outOfRange ∨
      ∃ tk r p, lexNumberFinish cs start P R = .ok (tk, r, p) ∧ r.length ≤ n := by
  rcases lexNumberFinish_classify cs start P R with h | ⟨tk, h⟩
  · exact Or.inr (Or.inl h)
  · exact Or.inr (Or.inr ⟨tk, R, P, h, hR⟩)

/-- `lexNumberExp` fails with the invalid-exponent `ParseError` or
`std::out_of_range`, or succeeds consuming only characters of `r2`. -/
theorem lexNumberExp_classify (cs : List Char) (start pos2 : Nat) (r2 : List Char) :
    (∃ msg, lexNumberExp cs start pos2 r2 = .error (.parseError msg)) ∨
    lexNumberExp cs start pos2 r2 = .error .outOfRange ∨
      ∃ tk r p, lexNumberExp cs start pos2 r2 = .ok (tk, r, p) ∧
        r.length ≤ r2.length := by
  cases r2 with
  | nil =>
    simp only [lexNumberExp]
    exact lexNumberFinish_cases cs start pos2 [] _ (Nat.le_refl _)
  | cons c t =>
    simp only [lexNumberExp]
    split
    · split
      · split
        · exact Or.inl ⟨_, rfl⟩
        · apply lexNumberFinish_cases
          simp only [List.length_drop, List.length_cons]
          omega
      · split
        · exact Or.inl ⟨_, rfl⟩
        · apply lexNumberFinish_cases
          simp only [List.length_drop, List.length_cons]
          omega
    · exact lexNumberFinish_cases cs start pos2 (c :: t) _ (Nat.le_refl _)

/-- `lexNumber` fails with a lexical `ParseError` or `std::out_of_range`,
or succeeds consuming at least one character. -/
theorem lexNumber_classify (cs : List Char) (pos : Nat) :
    (∃ msg, lexNumber cs pos = .error (.parseError msg)) ∨
    lexNumber cs pos = .error .outOfRange ∨
      ∃ tk r p, lexNumber cs pos = .ok (tk, r, p) ∧ r.length < cs.length := by
  have hdl : (cs.drop (cs.takeWhile isDigitC).length).length
      = cs.length - (cs.takeWhile isDigitC).length := List.length_drop _ _
  have hts : (cs.takeWhile isDigitC).length ≤ cs.length :=
    (List.takeWhile_sublist _).length_le
  simp only [lexNumber]
  split
  · next r1t heq =>
    have h1 : cs.length - (cs.takeWhile isDigitC).length = r1t.length + 1 := by
      rw [← hdl, heq]; simp
    split
    · exact Or.inl ⟨_, rfl⟩
    · rcases lexNumberExp_classify cs pos
          (pos + (cs.takeWhile isDigitC).length + 1 + (r1t.takeWhile isDigitC).length)
          (r1t.drop (r1t.takeWhile isDigitC).length) with ⟨msg, h⟩ | h | ⟨tk, r, p, h, hr⟩
      · exact Or.inl ⟨msg, h⟩
      · exact Or.inr (Or.inl h)
      · refine Or.inr (Or.inr ⟨tk, r, p, h, ?_⟩)
        have h2 : (r1t.drop (r1t.takeWhile isDigitC).length).length
            = r1t.length - (r1t.takeWhile isDigitC).length := List.length_drop _ _
        omega
  · split
    · exact Or.inl ⟨_, rfl⟩
    · next hne =>
      have hpos : 0 < (cs.takeWhile isDigitC).length := List.length_pos.mpr hne
      rcases lexNumberExp_classify cs pos (pos + (cs.takeWhile isDigitC).length)
          (cs.drop (cs.takeWhile isDigitC).length) with ⟨msg, h⟩ | h | ⟨tk, r, p, h, hr⟩
      · exact Or.inl ⟨msg, h⟩
      · exact Or.inr (Or.inl h)
      · refine Or.inr (Or.inr ⟨tk, r, p, h, ?_⟩)
        omega

/-- `lexHistoryRef` fails with the bare-`$` `ParseError` or
`std::out_of_range` from `std::stoi`, or succeeds consuming at least one
character. -/
theorem lexHistoryRef_classify (cs : List Char) (pos : Nat) :
    (∃ msg, lexHistoryRef cs pos = .error (.parseError msg)) ∨
    lexHistoryRef cs pos = .error .outOfRange ∨
      ∃ tk r p, lexHistoryRef cs pos = .ok (tk, r, p) ∧ r.length < cs.length := by
  simp only [lexHistoryRef]
  split
  · exact Or.inl ⟨_, rfl⟩
  · next hne =>
    split
    · exact Or.inr (Or.inl rfl)
    · refine Or.inr (Or.inr ⟨_, _, _, rfl, ?_⟩)
      have h1 : (cs.tail.takeWhile isDigitC).length ≤ cs.tail.length :=
        (List.takeWhile_sublist _).length_le
      have h2 : cs.tail.length = cs.length - 1 := List.length_tail _
      have h3 : (cs.tail.drop (cs.tail.takeWhile isDigitC).length).length
          = cs.tail.length - (cs.tail.takeWhile isDigitC).length := List.length_drop _ _
      omega

/-- Helper closing the classification through the `(t :: ·)` map over a
recursive `tokenizeLoop` call. -/
theorem tokenizeLoopMap_goal (f : Nat) (r : List Char) (p : Nat) (tk : Token)
    (h : (∃ ts, tokenizeLoop f r p = .ok ts) ∨
      (∃ msg, tokenizeLoop f r p = .error (.parseError msg)) ∨
      tokenizeLoop f r p = .error .outOfRange) :
    (∃ ts, (tokenizeLoop f r p).map (tk :: ·) = .ok ts) ∨
    (∃ msg, (tokenizeLoop f r p).map (tk :: ·) = .error (.parseError msg)) ∨
    (tokenizeLoop f r p).map (tk :: ·) = .error .outOfRange := by
  rcases h with ⟨ts, h2⟩ | ⟨msg, h2⟩ | h2 <;> simp only [h2, Except.map]
  · exact Or.inl ⟨_, rfl⟩
  · exact Or.inr (Or.inl ⟨_, rfl⟩)
  · exact Or.inr (Or.inr trivial)

/-- With fuel exceeding the input length, the lexer loop returns a token
list, a lexical `ParseError`, or `std::out_of_range` — it never runs out
of fuel and never produces any other error. -/
theorem tokenizeLoop_classify (fuel : Nat) :
    ∀ (cs : List Char) (pos : Nat), cs.length < fuel →
      (∃ ts, tokenizeLoop fuel cs pos = .ok ts) ∨
      (∃ msg, tokenizeLoop fuel cs pos = .error (.parseError msg)) ∨
      tokenizeLoop fuel cs pos = .error .outOfRange := by
  induction fuel with
  | zero => intro cs pos h; exact absurd h (Nat.not_lt_zero _)
  | succ f ih =>
    intro cs pos hlen
    have hws : (cs.takeWhile isSpaceC).length ≤ cs.length :=
      (List.takeWhile_sublist _).length_le
    have hdl : (cs.drop (cs.takeWhile isSpaceC).length).length
        = cs.length - (cs.takeWhile isSpaceC).length := List.length_drop _ _
    simp only [tokenizeLoop]
    rcases hsplit : cs.drop (cs.takeWhile isSpaceC).length with _ | ⟨c, rest⟩
    · exact Or.inl ⟨_, rfl⟩
    · rw [hsplit] at hdl
      simp only [List.length_cons] at hdl
      split
      · rename_i heq
        exact absurd heq (by simp)
      · rename_i c2 rest2 heq
        injection heq with hc hr2
        subst hc
        subst hr2
        split
        · rcases lexNumber_classify (c :: rest) (pos + (cs.takeWhile isSpaceC).length)
              with ⟨msg, h⟩ | h | ⟨tk, r, p, h, hr⟩
          · simp only [h]
            exact Or.inr (Or.inl ⟨msg, rfl⟩)
          · simp only [h]
            exact Or.inr (Or.inr trivial)
          · simp only [h]
            simp only [List.length_cons] at hr
            apply tokenizeLoopMap_goal
            apply ih
            omega
        · split
          · next hid =>
            have hpart : isIdentifierPart c = true := identifierStart_part c hid
            have hK : (c :: rest).takeWhile isIdentifierPart
                = c :: rest.takeWhile isIdentifierPart := by
              simp [List.takeWhile_cons, hpart]
            simp only [lexIdentifier]
            apply tokenizeLoopMap_goal
            apply ih
            rw [List.length_drop, hK]
            simp only [List.length_cons]
            omega
          · split
            · rcases lexHistoryRef_classify (c :: rest)
                  (pos + (cs.takeWhile isSpaceC).length)
                  with ⟨msg, h⟩ | h | ⟨tk, r, p, h, hr⟩
              · simp only [h]
                exact Or.inr (Or.inl ⟨msg, rfl⟩)
              · simp only [h]
                exact Or.inr (Or.inr trivial)
              · simp only [h]
                simp only [List.length_cons] at hr
                apply tokenizeLoopMap_goal
                apply ih
                omega
            · split
              · apply tokenizeLoopMap_goal
                apply ih
                omega
              · exact Or.inr (Or.inl ⟨_, rfl⟩)

/-- For every input string whatsoever, `tokenize` returns a token list
or fails with a lexical `ParseError` or with `std::out_of_range`. -/
theorem tokenize_classify (s : String) :
    (∃ ts, tokenize s = .ok ts) ∨
    (∃ msg, tokenize s = .error (.parseError msg)) ∨
    tokenize s = .error .outOfRange :=
  tokenizeLoop_classify (s.data.length + 1) s.data 0 (Nat.lt_succ_self _)

/-- C2 counterexample: the claim asserts `tokenize "$99999999999"`
returns a token sequence; in the code `std::stoi` throws
`std::out_of_range` (not a lexical `ParseError`) because the index
exceeds `INT_MAX`. -/
theorem claim_C2_counterexample :
    tokenize "$99999999999" = .error .outOfRange ∧
    Err.outOfRange.kind ≠ ErrKind.parse :=
  ⟨by decide, by decide⟩

/-- C2 amended: for every input string whatsoever, `tokenize` either
returns a token list or fails, and every failure is a lexical
`ParseError` (a character that cannot begin a token, an exponent marker
without digits, a bare `$`) or an uncaught `std::out_of_range`: a `$`
index above `INT_MAX` (e.g. `"$99999999999"`) makes `std::stoi` throw,
and a numeric literal beyond the double range (e.g. `"1e999"`) makes
`std::stod` throw; both escape the calculator error hierarchy.  In-range
payloads succeed (general statement for history references; `"1e308"`
and `"$2147483647"` concretely). -/
theorem claim_C2_lexer_totality :
    (∀ s : String,
      (∃ ts, tokenize s = .ok ts) ∨
      (∃ msg, tokenize s = .error (.parseError msg)) ∨
      tokenize s = .error .outOfRange) ∧
    (∀ ds : List Char, ds ≠ [] → (∀ c ∈ ds, isDigitC c = true) →
      ((natOfDigits ds ≤ intMax →
        tokenize (String.mk ('$' :: ds)) = .ok
          [⟨.HistoryRef, String.mk ('$' :: ds), 0, Val.zero,
            (natOfDigits ds : Int)⟩,
           ⟨.End, "", 1 + ds.length, Val.zero, 0⟩]) ∧
       (intMax < natOfDigits ds →
        tokenize (String.mk ('$' :: ds)) = .error .outOfRange))) ∧
    tokenize "@" = .error (.parseError "Unexpected token '@' at position 0") ∧
    tokenize "1e+" = .error (.parseError "Invalid number at position 1") ∧
    tokenize "$" = .error (.parseError "Unexpected token '$' at position 0") ∧
    tokenize "1e999" = .error .outOfRange ∧
    tokenize "$99999999999" = .error .outOfRange ∧
    (∃ ts, tokenize "1e308" = .ok ts) ∧
    tokenize "$2147483647" = .ok [⟨.HistoryRef, "$2147483647", 0, Val.zero,
      2147483647⟩, ⟨.End, "", 11, Val.zero, 0⟩] := by
  refine ⟨tokenize_classify, ?_, by decide, by decide, by decide, by decide,
    by decide, ⟨_, rfl⟩, by decide⟩
  intro ds h1 h2
  constructor
  · intro hle
    rw [tokenize_historyRef ds h1 h2, if_neg (not_lt.mpr hle)]
  · intro hlt
    rw [tokenize_historyRef ds h1 h2, if_pos hlt]

/-- Witness for the amended C2 at `ds = ['7']`. -/
theorem claim_C2_witness :
    tokenize (String.mk ('$' :: ['7'])) = .ok
      [⟨.HistoryRef, String.mk ('$' :: ['7']), 0, Val.zero,
        (natOfDigits ['7'] : Int)⟩,
       ⟨.End, "", 1 + ['7'].length, Val.zero, 0⟩] :=
  (claim_C2_lexer_totality.2.1 ['7'] (by decide) (by decide)).1 (by decide)

/-- C4: a leading minus wraps the entire power expression
(`parseUnary` on a `-` token recurses into `parseUnary`, whose
fall-through `parsePower` consumes `primary ^ unary`), so `"-P^E"`
parses as `Negate (Power P E)` and `"-2^2"` evaluates to -4; and the
right operand of `^` is a `parseUnary`, so `"2^-2"` parses as
`Power 2 (Negate 2)` and evaluates to 1/4. -/
theorem claim_C4_unary_power :
    (∀ (f : Nat) (t : Token) (ts : List Token), t.type = .Minus →
      parseUnary (f + 1) (t :: ts) =
        match parseUnary f ts with
        | .error e => .error e
        | .ok (n, r) => .ok (.UnaryNode .Negate n, r)) ∧
    (∀ (f : Nat) (ts : List Token) (p : Node) (t : Token) (rest : List Token),
      parsePrimary f ts = .ok (p, t :: rest) → t.type = .Caret →
      parsePower (f + 1) ts =
        match parseUnary f rest with
        | .error e => .error e
        | .ok (m, r2) => .ok (.BinaryNode .Power p m, r2)) ∧
    parseText "-2^2" = .ok (.UnaryNode .Negate (.BinaryNode .Power
      (.NumberNode ⟨2, 1⟩) (.NumberNode ⟨2, 1⟩))) ∧
    (Calculator.evaluate "-2^2" initialContext).1 = .ok ⟨-4, 1⟩ ∧
    parseText "2^-2" = .ok (.BinaryNode .Power (.NumberNode ⟨2, 1⟩)
      (.UnaryNode .Negate (.NumberNode ⟨2, 1⟩))) ∧
    (Calculator.evaluate "2^-2" initialContext).1 = .ok ⟨1, 4⟩ := by
  refine ⟨?_, ?_, rfl, by decide, rfl, by decide⟩
  · intro f t ts ht
    simp [parseUnary, curTok, ht]
  · intro f ts p t rest hp ht
    simp [parsePower, curTok, hp, ht]

/-- C10: for an assignment `x = E` the right-hand side is evaluated
against the environment before the binding is updated (the first
conjunct is the evaluator's assignment equation), so `"x = x + 1"` with
`x` bound to `v` binds `x` to `v + 1`, and with `x` unbound fails with
the unknown-variable error leaving the environment unchanged. -/
theorem claim_C10_assignment_order :
    (∀ (name : String) (en : Node) (ctx : EvaluationContext),
      evalNode (.AssignmentNode name en) ctx =
        match evalNode en ctx with
        | (.error e, c) => (.error e, c)
        | (.ok v, c) =>
          match c.setVariable name v with
          | .error err => (.error err, c)
          | .ok c2 => (.ok v, c2)) ∧
    (∀ (ctx : EvaluationContext) (v : Val), assocLookup ctx.vars "x" = some v →
      Calculator.evaluate "x = x + 1" ctx =
        (.ok (Val.add v ⟨1, 1⟩),
         ⟨assocUpdate ctx.vars "x" (Val.add v ⟨1, 1⟩),
          ctx.history ++ [Val.add v ⟨1, 1⟩]⟩)) ∧
    (∀ ctx : EvaluationContext, assocLookup ctx.vars "x" = none →
      (Calculator.evaluate "x = x + 1" ctx).1 =
        .error (.evalError "Unknown variable 'x'") ∧
      (Calculator.evaluate "x = x + 1" ctx).2 = ctx) := by
  have ht : tokenize "x = x + 1" = .ok
      [⟨.Identifier, "x", 0, Val.zero, 0⟩, ⟨.Assign, "=", 2, Val.zero, 0⟩,
       ⟨.Identifier, "x", 4, Val.zero, 0⟩, ⟨.Plus, "+", 6, Val.zero, 0⟩,
       ⟨.Number, "1", 8, ⟨1, 1⟩, 0⟩, ⟨.End, "", 9, Val.zero, 0⟩] := by decide
  have hp : parseTokens
      [⟨.Identifier, "x", 0, Val.zero, 0⟩, ⟨.Assign, "=", 2, Val.zero, 0⟩,
       ⟨.Identifier, "x", 4, Val.zero, 0⟩, ⟨.Plus, "+", 6, Val.zero, 0⟩,
       ⟨.Number, "1", 8, ⟨1, 1⟩, 0⟩, ⟨.End, "", 9, Val.zero, 0⟩] =
      .ok (.AssignmentNode "x" (.BinaryNode .Add (.VariableNode "x")
        (.NumberNode ⟨1, 1⟩))) := by rfl
  have hxe : ¬("x" = "pi" ∨ "x" = "e") := by decide
  refine ⟨?_, ?_, ?_⟩
  · intro name en ctx
    rfl
  · intro ctx v h
    simp [Calculator.evaluate, ht, hp, evalNode, EvaluationContext.getVariable,
      h, applyBinary, EvaluationContext.setVariable, hxe,
      EvaluationContext.pushHistory]
  · intro ctx h
    constructor <;>
      simp [Calculator.evaluate, ht, hp, evalNode,
        EvaluationContext.getVariable, h]

/-- C6: `$N` against a history of length L (as at the start of the
call) succeeds with the N-th value (1-based) exactly when 1 ≤ N ≤ L and
fails with an evaluation error otherwise; the evaluator reads the
history through `getHistoryValue` on the context as it stands (the
about-to-be-appended value is not visible, e.g. `"$1"` on an empty
history fails); a successful `evaluate` appends exactly one entry and a
failed one appends none; concretely after `"10"` and `"20"`,
`"$1 + $2"` is 30 while `"$0"` and `"$3"` fail. -/
theorem claim_C6_history_semantics :
    (∀ (ctx : EvaluationContext) (i : Int),
      (1 ≤ i → i ≤ (ctx.history.length : Int) →
        ctx.getHistoryValue i = .ok (ctx.history.getD (i.toNat - 1) Val.zero)) ∧
      (i ≤ 0 ∨ (ctx.history.length : Int) < i →
        ctx.getHistoryValue i = .error (.evalError
          ("History reference '$" ++ Int.repr i ++ "' out of range")))) ∧
    (∀ (i : Int) (ctx : EvaluationContext),
      evalNode (.HistoryRefNode i) ctx = (ctx.getHistoryValue i, ctx)) ∧
    (∀ (text : String) (ctx : EvaluationContext) (v : Val)
        (ctx' : EvaluationContext), Calculator.evaluate text ctx = (.ok v, ctx') →
      ctx'.history = ctx.history ++ [v]) ∧
    (∀ (text : String) (ctx : EvaluationContext) (e : Err),
      (Calculator.evaluate text ctx).1 = .error e →
      ((Calculator.evaluate text ctx).2).history = ctx.history) ∧
    Calculator.evaluate "10" initialContext =
      (.ok ⟨10, 1⟩, ⟨[("pi", piVal), ("e", eVal)], [⟨10, 1⟩]⟩) ∧
    Calculator.evaluate "20" ⟨[("pi", piVal), ("e", eVal)], [⟨10, 1⟩]⟩ =
      (.ok ⟨20, 1⟩, ⟨[("pi", piVal), ("e", eVal)], [⟨10, 1⟩, ⟨20, 1⟩]⟩) ∧
    (Calculator.evaluate "$1 + $2"
      ⟨[("pi", piVal), ("e", eVal)], [⟨10, 1⟩, ⟨20, 1⟩]⟩).1 = .ok ⟨30, 1⟩ ∧
    (Calculator.evaluate "$0"
      ⟨[("pi", piVal), ("e", eVal)], [⟨10, 1⟩, ⟨20, 1⟩]⟩).1 =
      .error (.evalError "History reference '$0' out of range") ∧
    (Calculator.evaluate "$3"
      ⟨[("pi", piVal), ("e", eVal)], [⟨10, 1⟩, ⟨20, 1⟩]⟩).1 =
      .error (.evalError "History reference '$3' out of range") ∧
    (Calculator.evaluate "$1" initialContext).1 =
      .error (.evalError "History reference '$1' out of range") := by
  refine ⟨?_, ?_, ?_, ?_, by decide, by decide, by decide, by decide,
    by decide, by decide⟩
  · intro ctx i
    constructor
    · intro h1 h2
      unfold EvaluationContext.getHistoryValue
      rw [if_neg (by omega)]
    · intro h
      unfold EvaluationContext.getHistoryValue
      rw [if_pos h]
  · intro i ctx
    rfl
  · intro text ctx v ctx' h
    exact (evaluate_ok_frame text ctx v ctx' h).1
  · intro text ctx e h
    rw [evaluate_error_frame text ctx e h]

/-- C7 counterexample: the claim asserts every statement `"pi = E"`
fails with an evaluation error naming the constant, but the evaluator
computes the right-hand side first, so `"pi = 1/0"` fails with the
right-hand side's own error `"Division by zero"` — an evaluation error
whose message does not name (or even mention) the constant. -/
theorem claim_C7_counterexample :
    (Calculator.evaluate "pi = 1/0" initialContext).1 =
      .error (.evalError "Division by zero") ∧
    (Calculator.evaluate "pi = 1/0" initialContext).1 ≠
      .error (.evalError ("Cannot assign to constant '" ++ "pi" ++ "'")) :=
  ⟨by decide, by decide⟩

/-- C7 amended: in every context reachable by any sequence of
`evaluate` calls, `pi` and `e` stay bound to the seeded `acos(-1)` and
`exp(1)` doubles; every statement parsed as an assignment to `pi` or
`e` makes the call fail and leaves the context (hence both bindings)
unchanged — with the evaluation error naming the constant when the
right-hand side itself evaluates successfully, and with the right-hand
side's own error when it fails (e.g. `"pi = 1/0"` fails with
`"Division by zero"`). -/
theorem claim_C7_protected_constants :
    (∀ ctx, Reachable ctx →
      assocLookup ctx.vars "pi" = some piVal ∧
      assocLookup ctx.vars "e" = some eVal) ∧
    (∀ (text : String) (ctx : EvaluationContext) (toks : List Token)
        (name : String) (en : Node), (name = "pi" ∨ name = "e") →
      tokenize text = .ok toks →
      parseTokens toks = .ok (.AssignmentNode name en) →
      (∃ e, (Calculator.evaluate text ctx).1 = .error e) ∧
      (Calculator.evaluate text ctx).2 = ctx ∧
      (∀ (w : Val) (c : EvaluationContext), evalNode en ctx = (.ok w, c) →
        (Calculator.evaluate text ctx).1 = .error (.evalError
          ("Cannot assign to constant '" ++ name ++ "'"))) ∧
      (∀ (e2 : Err) (c : EvaluationContext), evalNode en ctx = (.error e2, c) →
        (Calculator.evaluate text ctx).1 = .error e2)) ∧
    Calculator.evaluate "pi = 1" initialContext =
      (.error (.evalError "Cannot assign to constant 'pi'"), initialContext) ∧
    Calculator.evaluate "e = 1" initialContext =
      (.error (.evalError "Cannot assign to constant 'e'"), initialContext) ∧
    Calculator.evaluate "pi = 1/0" initialContext =
      (.error (.evalError "Division by zero"), initialContext) := by
  refine ⟨?_, ?_, by decide, by decide, by decide⟩
  · intro ctx hr
    induction hr with
    | init => exact ⟨rfl, rfl⟩
    | step text hr2 ih =>
      rename_i ctx2
      rcases hres : Calculator.evaluate text ctx2 with ⟨res, c2⟩
      cases res with
      | error e =>
        have hfr := evaluate_error_frame text ctx2 e (by rw [hres])
        rw [hres] at hfr
        have hc : c2 = ctx2 := hfr
        show assocLookup c2.vars "pi" = some piVal ∧
          assocLookup c2.vars "e" = some eVal
        rw [hc]
        exact ih
      | ok v =>
        have hok := evaluate_ok_frame text ctx2 v c2 (by rw [hres])
        obtain ⟨_, toks, node, _, _, hcase⟩ := hok
        show assocLookup c2.vars "pi" = some piVal ∧
          assocLookup c2.vars "e" = some eVal
        rcases hcase with ⟨_, hv⟩ | ⟨name, en, _, hname, hv⟩
        · rw [hv]; exact ih
        · rw [hv]
          rw [assocLookup_update_ne ctx2.vars name v "pi"
            (fun h => hname (Or.inl h.symm))]
          rw [assocLookup_update_ne ctx2.vars name v "e"
            (fun h => hname (Or.inr h.symm))]
          exact ih
  · intro text ctx toks name en hname ht hp
    have hshape := parseTokens_shape toks (.AssignmentNode name en) hp
    have hen : noAssign en = true := by
      rcases hshape with hna | ⟨nm, en2, heq, hen2⟩
      · simp [noAssign] at hna
      · injection heq with h1 h2
        rw [h2]; exact hen2
    rcases hm : evalNode en ctx with ⟨res, c⟩
    have hframe : c = ctx := by
      have hfr := evalNode_frame en ctx hen; rw [hm] at hfr; exact hfr
    have hset : ∀ (cc : EvaluationContext) (w : Val), cc.setVariable name w =
        .error (.evalError ("Cannot assign to constant '" ++ name ++ "'")) := by
      intro cc w
      unfold EvaluationContext.setVariable
      rw [if_pos hname]
    cases res with
    | error e2 =>
      refine ⟨⟨e2, ?_⟩, ?_, ?_, ?_⟩
      · simp [Calculator.evaluate, ht, hp, evalNode, hm]
      · simp [Calculator.evaluate, ht, hp, evalNode, hm, hframe]
      · intro w c3 hwc
        simp at hwc
      · intro e3 c3 hwc
        simp only [Prod.mk.injEq] at hwc
        obtain ⟨he, _⟩ := hwc
        injection he with he2
        rw [← he2]
        simp [Calculator.evaluate, ht, hp, evalNode, hm]
    | ok w =>
      refine ⟨⟨.evalError ("Cannot assign to constant '" ++ name ++ "'"), ?_⟩,
        ?_, ?_, ?_⟩
      · simp [Calculator.evaluate, ht, hp, evalNode, hm, hset]
      · simp [Calculator.evaluate, ht, hp, evalNode, hm, hset, hframe]
      · intro w2 c3 hwc
        simp [Calculator.evaluate, ht, hp, evalNode, hm, hset]
      · intro e3 c3 hwc
        simp at hwc

/-- Witness for C4's quantified conjuncts at a concrete token list. -/
theorem claim_C4_witness :
    parseUnary (3 + 1) [⟨.Minus, "-", 0, Val.zero, 0⟩,
      ⟨.Number, "5", 1, ⟨5, 1⟩, 0⟩, ⟨.End, "", 2, Val.zero, 0⟩] =
      match parseUnary 3 [⟨.Number, "5", 1, ⟨5, 1⟩, 0⟩,
        ⟨.End, "", 2, Val.zero, 0⟩] with
      | .error e => .error e
      | .ok (n, r) => .ok (.UnaryNode .Negate n, r) :=
  claim_C4_unary_power.1 3 ⟨.Minus, "-", 0, Val.zero, 0⟩
    [⟨.Number, "5", 1, ⟨5, 1⟩, 0⟩, ⟨.End, "", 2, Val.zero, 0⟩] rfl

/-- Witness for C6's quantified conjuncts at `$1` on a two-entry
history. -/
theorem claim_C6_witness :
    EvaluationContext.getHistoryValue ⟨[], [⟨10, 1⟩, ⟨20, 1⟩]⟩ 1 =
      .ok ((⟨[], [⟨10, 1⟩, ⟨20, 1⟩]⟩ :
        EvaluationContext).history.getD ((1 : Int).toNat - 1) Val.zero) :=
  (claim_C6_history_semantics.1 ⟨[], [⟨10, 1⟩, ⟨20, 1⟩]⟩ 1).1
    (by decide) (by decide)

/-- Witness for C7: the invariant at the initial context, and the
assignment-rejection conjunct at `"pi = 1"`. -/
theorem claim_C7_witness :
    (assocLookup initialContext.vars "pi" = some piVal ∧
     assocLookup initialContext.vars "e" = some eVal) ∧
    ((∃ e, (Calculator.evaluate "pi = 1" initialContext).1 = .error e) ∧
     (Calculator.evaluate "pi = 1" initialContext).2 = initialContext ∧
     (∀ (w : Val) (c : EvaluationContext),
        evalNode (.NumberNode ⟨1, 1⟩) initialContext = (.ok w, c) →
        (Calculator.evaluate "pi = 1" initialContext).1 =
          .error (.evalError ("Cannot assign to constant '" ++ "pi" ++ "'"))) ∧
     (∀ (e2 : Err) (c : EvaluationContext),
        evalNode (.NumberNode ⟨1, 1⟩) initialContext = (.error e2, c) →
        (Calculator.evaluate "pi = 1" initialContext).1 = .error e2)) :=
  ⟨claim_C7_protected_constants.1 initialContext Reachable.init,
   claim_C7_protected_constants.2.1 "pi = 1" initialContext
     [⟨.Identifier, "pi", 0, Val.zero, 0⟩, ⟨.Assign, "=", 3, Val.zero, 0⟩,
      ⟨.Number, "1", 5, ⟨1, 1⟩, 0⟩, ⟨.End, "", 6, Val.zero, 0⟩]
     "pi" (.NumberNode ⟨1, 1⟩) (Or.inl rfl) (by decide) rfl⟩

/-- Witness for C10 at `x` bound to 5 in a minimal context. -/
theorem claim_C10_witness :
    Calculator.evaluate "x = x + 1" ⟨[("x", ⟨5, 1⟩)], []⟩ =
      (.ok (Val.add ⟨5, 1⟩ ⟨1, 1⟩),
       ⟨assocUpdate [("x", ⟨5, 1⟩)] "x" (Val.add ⟨5, 1⟩ ⟨1, 1⟩),
        [] ++ [Val.add ⟨5, 1⟩ ⟨1, 1⟩]⟩) :=
  claim_C10_assignment_order.2.1 ⟨[("x", ⟨5, 1⟩)], []⟩ ⟨5, 1⟩ (by decide)

end Calc

